import Mathlib

/-!
Verification of the geometric core of the centrack/cenfind repository:
the ROI value types (Centre, BBox, Contour) of src/centrack/annotation.py,
the focus-to-nucleus assignment engines of src/src/cenfind/core/measure.py,
src/src/centrack/commands/score.py and src/centrack/score.py, the
detection-metrics and score-frequency routines of
src/src/cenfind/core/measure.py, and the coordinate export routine of
src/src/cenfind/cli/score.py, embedded as executable Lean definitions.

Contour points follow the OpenCV convention of `cv2.findContours` output:
a contour point is an `(x, y) = (col, row)` integer pair, while a `Centre`
position is a `(row, col)` pair, exactly as in the Python sources.
-/

namespace Centrack

/-- Python `int()` applied to a rational value: truncation toward zero. -/
def pyInt (q : ℚ) : ℤ := if q < 0 then -⌊-q⌋ else ⌊q⌋

/-- Numpy `np.round(x, 3)`: rounding half-to-even at the third decimal place. -/
def npRound3 (q : ℚ) : ℚ :=
  let s := q * 1000
  let f : ℤ := ⌊s⌋
  let r : ℚ := s - f
  let n : ℤ := if r < 1/2 then f else if 1/2 < r then f + 1
    else if f % 2 = 0 then f else f + 1
  (n : ℚ) / 1000

/-- Directed edge list of a closed polygon: each vertex paired with its cyclic
successor (the closing edge included, as in OpenCV's contour iteration). -/
def polyEdges {α : Type} (pts : List α) : List (α × α) := pts.zip (pts.rotate 1)

/-- Green-formula accumulator shared by the raw contour moments of
`cv2.moments`: the cross term of every cyclic edge weighted by `w`. -/
def momentSum (pts : List (ℤ × ℤ)) (w : ℤ × ℤ → ℤ × ℤ → ℤ) : ℤ :=
  ((polyEdges pts).map fun e => (e.1.1 * e.2.2 - e.2.1 * e.1.2) * w e.1 e.2).sum

/-- Raw area accumulator `a00` of `cv2.moments` on a contour. -/
def rawA00 (pts : List (ℤ × ℤ)) : ℤ := momentSum pts fun _ _ => 1

/-- Raw first-moment accumulator `a10` (x direction) of `cv2.moments`. -/
def rawA10 (pts : List (ℤ × ℤ)) : ℤ := momentSum pts fun p q => p.1 + q.1

/-- Raw first-moment accumulator `a01` (y direction) of `cv2.moments`. -/
def rawA01 (pts : List (ℤ × ℤ)) : ℤ := momentSum pts fun p q => p.2 + q.2

/-- Spatial moments of a contour, the fields of `cv2.moments` used by the code. -/
structure Moments where
  m00 : ℚ
  m10 : ℚ
  m01 : ℚ
deriving DecidableEq

/-- Modelled from the OpenCV documentation: `cv2.moments` on a polygonal
contour accumulates the Green-formula sums `a00`, `a10`, `a01` over the cyclic
edges, leaves every moment at zero when `|a00|` is below `FLT_EPSILON` (for
integer points, exactly when `a00 = 0`), and otherwise multiplies by
`±1/2` and `±1/6` with the sign of `a00`, so `m00 = |area| ≥ 0`. -/
def cvMoments (pts : List (ℤ × ℤ)) : Moments :=
  let a00 := rawA00 pts
  if a00 = 0 then ⟨0, 0, 0⟩
  else if 0 < a00 then ⟨(a00 : ℚ) / 2, (rawA10 pts : ℚ) / 6, (rawA01 pts : ℚ) / 6⟩
  else ⟨-(a00 : ℚ) / 2, -(rawA10 pts : ℚ) / 6, -(rawA01 pts : ℚ) / 6⟩

/-- Modelled from the OpenCV documentation: `cv2.boundingRect` on integer
points returns `(x, y, w, h)` where `(x, y)` is the minimal corner and `w`,
`h` are `max - min + 1` along the x and y axes; the empty input gives the
zero rectangle. -/
def boundingRect : List (ℤ × ℤ) → ℤ × ℤ × ℤ × ℤ
  | [] => (0, 0, 0, 0)
  | p :: ps =>
    let xmin := ps.foldl (fun m q => min m q.1) p.1
    let ymin := ps.foldl (fun m q => min m q.2) p.2
    let xmax := ps.foldl (fun m q => max m q.1) p.1
    let ymax := ps.foldl (fun m q => max m q.2) p.2
    (xmin, ymin, xmax - xmin + 1, ymax - ymin + 1)

/-- Squared Euclidean norm of a planar vector. -/
def sqnorm (v : ℚ × ℚ) : ℚ := v.1 * v.1 + v.2 * v.2

/-- Squared distance from the point `p` to the segment from `a` to `b`:
the parameter of the orthogonal projection is clamped to `[0, 1]`. -/
def segSqDist (p a b : ℚ × ℚ) : ℚ :=
  let ab : ℚ × ℚ := (b.1 - a.1, b.2 - a.2)
  let ap : ℚ × ℚ := (p.1 - a.1, p.2 - a.2)
  let len2 := sqnorm ab
  if len2 = 0 then sqnorm ap
  else
    let t := max 0 (min 1 ((ap.1 * ab.1 + ap.2 * ab.2) / len2))
    sqnorm (p.1 - (a.1 + t * ab.1), p.2 - (a.2 + t * ab.2))

/-- Minimum of a list of rationals (zero on the empty list, which the callers
never produce). -/
def listMin : List ℚ → ℚ
  | [] => 0
  | x :: xs => xs.foldl min x

/-- Squared distance from the point `p` to the boundary of the polygon. -/
def polySqDist (poly : List (ℚ × ℚ)) (p : ℚ × ℚ) : ℚ :=
  listMin ((polyEdges poly).map fun e => segSqDist p e.1 e.2)

/-- One step of the even-odd ray-casting rule: whether the horizontal ray
from `p` crosses the edge from `a` to `b`. -/
def crossesRay (p a b : ℚ × ℚ) : Bool :=
  (decide (p.2 < a.2) != decide (p.2 < b.2)) &&
    decide (p.1 < a.1 + (b.1 - a.1) * (p.2 - a.2) / (b.2 - a.2))

/-- Even-odd insideness of a point with respect to a polygon: an odd number
of edges crossed by the horizontal ray. -/
def insidePoly (poly : List (ℚ × ℚ)) (p : ℚ × ℚ) : Bool :=
  ((polyEdges poly).countP fun e => crossesRay p e.1 e.2) % 2 = 1

/-- Modelled from the OpenCV documentation and the spec glossary:
`cv2.pointPolygonTest(contour, pt, measureDist=True)` returns the signed
distance from the point to the contour — positive inside, negative outside,
zero on the boundary, magnitude the distance to the nearest boundary point.
To keep every value rational the result is reported on the strictly monotone
scale `x ↦ sign x * x^2`: this model returns the sign times the squared
distance, and the vicinity threshold `-50` of the sources correspondingly
becomes `-2500` wherever the model value is compared. -/
def pointPolygonTest (poly : List (ℚ × ℚ)) (p : ℚ × ℚ) : ℚ :=
  let d2 := polySqDist poly p
  if d2 = 0 then 0 else if insidePoly poly p then d2 else -d2

namespace Score

/-- Python exceptions raised by the embedded functions. -/
inductive PyError where
  | valueError (msg : String)
  | indexError
deriving DecidableEq

/-- Python `max(l, key=lambda x: x[1])` on a list of (value, key) pairs:
the first element with the maximal key (a later element replaces the current
maximum only on a strictly greater key); `none` on the empty list, where
Python would raise. -/
def pyMax {γ : Type} : List (γ × ℚ) → Option (γ × ℚ)
  | [] => none
  | x :: xs => some (xs.foldl (fun best y => if best.2 < y.2 then y else best) x)

/-- Loop body of `assign` in src/src/centrack/commands/score.py: compute the
signed distance of the focus `c` to every nucleus contour, take the nearest
nucleus, and append the pairing only when the signed distance exceeds the
vicinity threshold (`-50` in the source, `-2500` on the squared scale of the
`pointPolygonTest` model).  A focus is the `c.centre` coordinate pair the
source hands to `cv2.pointPolygonTest`. -/
def assignStep (nuclei_list : List (List (ℚ × ℚ)))
    (assigned : List ((ℚ × ℚ) × List (ℚ × ℚ))) (c : ℚ × ℚ) :
    List ((ℚ × ℚ) × List (ℚ × ℚ)) :=
  let distances := nuclei_list.map fun n => (n, pointPolygonTest n c)
  match pyMax distances with
  | none => assigned
  | some nearest =>
    if -2500 < nearest.2 then assigned ++ [(c, nearest.1)] else assigned

/-- Function `assign` of src/src/centrack/commands/score.py (the
nearest-with-threshold flavor): raises ValueError on an empty focus or
nucleus list, else pairs each focus with its nearest nucleus when within
the vicinity threshold. -/
def assign (foci_list : List (ℚ × ℚ)) (nuclei_list : List (List (ℚ × ℚ))) :
    Except PyError (List ((ℚ × ℚ) × List (ℚ × ℚ))) :=
  if foci_list.length = 0 then .error (.valueError ("Empty foci list"))
  else if nuclei_list.length = 0 then .error (.valueError ("Empty nuclei list"))
  else .ok (foci_list.foldl (assignStep nuclei_list) [])

/-- Loop body of `assign` in src/centrack/score.py: as `assignStep`, but the
pairing with the nearest nucleus is always appended, with no threshold. -/
def assignForceStep (nuclei_list : List (List (ℚ × ℚ)))
    (assigned : List ((ℚ × ℚ) × List (ℚ × ℚ))) (c : ℚ × ℚ) :
    List ((ℚ × ℚ) × List (ℚ × ℚ)) :=
  let distances := nuclei_list.map fun n => (n, pointPolygonTest n c)
  match pyMax distances with
  | none => assigned
  | some nearest => assigned ++ [(c, nearest.1)]

/-- Function `assign` of src/centrack/score.py (the force-assign flavor):
raises ValueError on an empty focus or nucleus list, else force-assigns
every focus to its nearest nucleus. -/
def assignForce (foci_list : List (ℚ × ℚ)) (nuclei_list : List (List (ℚ × ℚ))) :
    Except PyError (List ((ℚ × ℚ) × List (ℚ × ℚ))) :=
  if foci_list.length = 0 then .error (.valueError ("Empty foci list"))
  else if nuclei_list.length = 0 then .error (.valueError ("Empty nuclei list"))
  else .ok (foci_list.foldl (assignForceStep nuclei_list) [])

/-- Specification predicate for one output pairing of the
nearest-with-threshold `assign`: the nucleus is one of the inputs, the focus
lies within the vicinity threshold of it, and no input nucleus is nearer. -/
def NearestOk (nuclei_list : List (List (ℚ × ℚ)))
    (pr : (ℚ × ℚ) × List (ℚ × ℚ)) : Prop :=
  pr.2 ∈ nuclei_list ∧ -2500 < pointPolygonTest pr.2 pr.1 ∧
    ∀ n ∈ nuclei_list, pointPolygonTest n pr.1 ≤ pointPolygonTest pr.2 pr.1

end Score

namespace Measure

/-- Loop of `assign` in src/src/cenfind/core/measure.py: `_nuclei.pop()`
removes the last element of the copied list and the pair is appended, so the
output pairs appear in reversed nucleus order. -/
def assignLoop {α β : Type} (d : α → β → ℚ) (foci : List α) (vicinity : ℚ) :
    List β → List (β × List α)
  | [] => []
  | b :: bs =>
    let n := (b :: bs).getLast (List.cons_ne_nil b bs)
    (n, foci.filter fun f => decide (vicinity < d f n)) ::
      assignLoop d foci vicinity (b :: bs).dropLast
termination_by l => l.length
decreasing_by
  simp only [List.length_dropLast, List.length_cons]
  omega

/-- Function `assign` of src/src/cenfind/core/measure.py (the
all-within-threshold flavor): for every nucleus, collect every focus whose
signed distance exceeds the vicinity threshold.  The helper
`signed_distance` lives in cenfind/core/helpers.py, which is absent from the
sources, so the distance rule is passed as the parameter `d`. -/
def assign {α β : Type} (d : α → β → ℚ) (foci : List α) (nuclei : List β)
    (vicinity : ℚ) : List (β × List α) :=
  assignLoop d foci vicinity nuclei

/-- Modelled from the spec: `signed_distance` (cenfind/core/helpers.py,
absent from the sources) computes the signed distance of a focus to a
nucleus contour, positive inside and negative outside with the distance to
the boundary as magnitude; realised here by the `pointPolygonTest` model. -/
def signed_distance (f : ℚ × ℚ) (n : List (ℚ × ℚ)) : ℚ := pointPolygonTest n f

/-- Result object of the external `spotipy.utils.points_matching`: the three
ratio fields read by `field_metrics`. -/
structure MatchResult where
  precision : ℚ
  «recall» : ℚ
  f1 : ℚ

/-- Metric record assembled by `field_metrics`. -/
structure Perf where
  dataset : String
  field : String
  channel : ℕ
  n_actual : ℕ
  n_preds : ℕ
  tolerance : ℤ
  precision : ℚ
  «recall» : ℚ
  f1 : ℚ

/-- Function `field_metrics` of src/src/cenfind/core/measure.py.  The guard
`all((len(predictions), len(annotation))) > 0` compares the Boolean `all` of
the two lengths with `0`, which in Python holds exactly when both lists are
non-empty.  The external `spotipy.utils.points_matching` is passed as the
parameter `matcher`; `dataset` and `fieldName` stand for
`field.dataset.path.name` and `field.name`. -/
def field_metrics {π : Type} (matcher : List π → List π → ℤ → MatchResult)
    (dataset fieldName : String) (channel : ℕ)
    ( annotation predictions : List π) (tolerance : ℤ) : Perf :=
  let res :=
    if predictions.length ≠ 0 ∧ annotation.length ≠ 0 then
      matcher annotation predictions tolerance
    else
      ⟨0, 0, 0⟩
  { dataset := dataset
    field := fieldName
    channel := channel
    n_actual := annotation.length
    n_preds := predictions.length
    tolerance := tolerance
    precision := npRound3 res.precision
    «recall» := npRound3 res.«recall»
    f1 := npRound3 res.f1 }

/-- Binning step of `field_score_frequency` in
src/src/cenfind/core/measure.py: `pd.cut` with cuts `[0, 1, 2, 3, 4, 5, inf]`
and `right=False`, so the bucket labelled `k < 5` is the right-open interval
`[k, k+1)` and the bucket labelled `+` is `[5, inf)`; a score is the
integer count of assigned foci of one nucleus. -/
def score_cat (score : ℕ) : String :=
  if score < 1 then "0"
  else if score < 2 then "1"
  else if score < 3 then "2"
  else if score < 4 then "3"
  else if score < 5 then "4"
  else "+"

/-- One row of the score dataframe handed to `field_score_frequency`. -/
structure ScoreRecord where
  fov : String
  channel : ℕ
  score : ℕ

/-- Grouped absolute frequency computed by `field_score_frequency`: the
number of records of one `(fov, channel)` group whose score falls in the
bucket `label`. -/
def freq_abs (df : List ScoreRecord) (fov : String) (channel : ℕ)
    (label : String) : ℕ :=
  (df.filter fun r =>
    r.fov == fov && r.channel == channel && score_cat r.score == label).length

end Measure

namespace Annot

/-- Value type `Centre` of src/centrack/annotation.py (the fields the claims
touch): a point ROI at an integer `(row, col)` position. -/
structure Centre where
  position : ℤ × ℤ
  idx : ℤ
  label : String
  confidence : ℚ

/-- Value type `BBox` of src/centrack/annotation.py. -/
structure BBox where
  top_left : ℤ × ℤ
  bottom_right : ℤ × ℤ
  idx : ℤ
  label : String
  confidence : ℚ

/-- Property `BBox.height`: difference of the first coordinates. -/
def BBox.height (b : BBox) : ℤ := b.bottom_right.1 - b.top_left.1

/-- Property `BBox.width`: difference of the second coordinates. -/
def BBox.width (b : BBox) : ℤ := b.bottom_right.2 - b.top_left.2

/-- Property `BBox.centre`: the midpoint under Python floor division `//`. -/
def BBox.centre (b : BBox) : Centre :=
  ⟨((b.bottom_right.1 + b.top_left.1).fdiv 2,
    (b.bottom_right.2 + b.top_left.2).fdiv 2),
    b.idx, b.label, b.confidence⟩

/-- Value type `Contour` of src/centrack/annotation.py: boundary points in
the OpenCV `(x, y) = (col, row)` order of `cv2.findContours` output. -/
structure Contour where
  contour : List (ℤ × ℤ)
  label : String
  idx : ℤ
  confidence : ℚ

/-- Property `Contour.bbox` of src/centrack/annotation.py: the source
unpacks `cv2.boundingRect` — which returns `(x, y, w, h)` — into variables
named `r, c, h, w` and builds the corners from them, exactly as reproduced
here. -/
def Contour.bbox (ct : Contour) : BBox :=
  let (r, c, h, w) := boundingRect ct.contour
  ⟨(r, c), (r + h, c + w), ct.idx, ct.label, ct.confidence⟩

/-- Property `Contour.centre` of src/centrack/annotation.py: the
image-moment centroid with the `1e-5` denominator guard, the row from `m01`
and the column from `m10`, each truncated by `int()`. -/
def Contour.centre (ct : Contour) : Centre :=
  let m := cvMoments ct.contour
  ⟨(pyInt (m.m01 / (m.m00 + 1/100000)), pyInt (m.m10 / (m.m00 + 1/100000))),
    ct.idx, ct.label, ct.confidence⟩

/-- Membership of a point in an axis-aligned box, bounds included. -/
def inBBox (p : ℤ × ℤ) (b : BBox) : Prop :=
  b.top_left.1 ≤ p.1 ∧ p.1 ≤ b.bottom_right.1 ∧
    b.top_left.2 ≤ p.2 ∧ p.2 ≤ b.bottom_right.2

instance (p : ℤ × ℤ) (b : BBox) : Decidable (inBBox p b) := by
  unfold inBBox
  exact inferInstance

end Annot

namespace Cli

/-- Value type `Centre` of src/src/cenfind/core/outline.py (the fields
`save_foci` uses): a point ROI at an integer `(row, col)` position. -/
structure Centre where
  position : ℤ × ℤ

/-- Method `Centre.to_numpy`: the `(row, col)` pair of the centre, already
integral here. -/
def Centre.to_numpy (c : Centre) : ℤ × ℤ := c.position

/-- Modelled from the numpy documentation: the `array` local of `save_foci`
is the one-dimensional empty array `np.array([])` when no foci are given,
else the two-dimensional N-by-2 stack of the `(row, col)` pairs. -/
inductive NpArray where
  | dim1 (data : List ℚ)
  | dim2 (rows : List (ℤ × ℤ))

/-- Modelled from the numpy documentation: the indexing `array[:, [1, 0]]`
needs two axes, so on a one-dimensional array it raises IndexError, and on
an N-by-2 array it swaps the two columns. -/
def swapCols : NpArray → Except Score.PyError (List (ℤ × ℤ))
  | .dim1 _ => .error .indexError
  | .dim2 rows => .ok (rows.map fun rc => (rc.2, rc.1))

/-- Function `save_foci` of src/src/cenfind/cli/score.py; the value is the
list of integer rows handed to `np.savetxt`, one row per focus. -/
def save_foci (foci_list : List Centre) : Except Score.PyError (List (ℤ × ℤ)) :=
  let array := if foci_list.length = 0 then NpArray.dim1 []
    else NpArray.dim2 (foci_list.map Centre.to_numpy)
  swapCols array

end Cli

end Centrack

namespace Centrack

/-! ### Helper lemmas -/

theorem npRound3_zero : npRound3 0 = 0 := by
  with_unfolding_all decide

theorem assignLoop_append {α β : Type} (d : α → β → ℚ) (foci : List α) (v : ℚ)
    (l : List β) (a : β) :
    Measure.assignLoop d foci v (l ++ [a])
      = (a, foci.filter fun f => decide (v < d f a)) ::
          Measure.assignLoop d foci v l := by
  cases l with
  | nil => simp [Measure.assignLoop]
  | cons c cs =>
    show Measure.assignLoop d foci v (c :: (cs ++ [a])) = _
    rw [Measure.assignLoop]
    have h1 : (c :: (cs ++ [a])).getLast (List.cons_ne_nil _ _) = a := by
      simp [List.getLast_append]
    have h2 : (c :: (cs ++ [a])).dropLast = c :: cs := by
      show ((c :: cs) ++ [a]).dropLast = c :: cs
      exact List.dropLast_concat
    rw [h1, h2]

theorem assignLoop_eq {α β : Type} (d : α → β → ℚ) (foci : List α) (v : ℚ)
    (l : List β) :
    Measure.assignLoop d foci v l
      = l.reverse.map fun n => (n, foci.filter fun f => decide (v < d f n)) := by
  induction l using List.reverseRecOn with
  | nil => rw [Measure.assignLoop]; simp
  | append_singleton l a ih => rw [assignLoop_append, ih]; simp

/-! ### Claim C1: the all-within-threshold assign -/

/-- C1: for every distance rule, focus list, nucleus list and vicinity value,
the all-within-threshold `assign` of cenfind/core/measure.py returns exactly
one pair per input nucleus (the nuclei of the output are the input nuclei in
reversed order, so distinct input nuclei are never duplicated), and a focus
belongs to a pair's list exactly when its signed distance to that pair's
nucleus exceeds the vicinity threshold — so the same focus may appear in the
lists of several nuclei, and an empty focus list yields pairs with empty
focus lists without raising. -/
theorem C1_assign_all_within_threshold {α β : Type} (d : α → β → ℚ)
    (foci : List α) (nuclei : List β) (vicinity : ℚ) :
    (Measure.assign d foci nuclei vicinity).map Prod.fst = nuclei.reverse ∧
    (∀ p ∈ Measure.assign d foci nuclei vicinity, ∀ f,
      f ∈ p.2 ↔ f ∈ foci ∧ vicinity < d f p.1) ∧
    (nuclei.Nodup →
      ((Measure.assign d foci nuclei vicinity).map Prod.fst).Nodup) ∧
    (foci = [] → ∀ p ∈ Measure.assign d foci nuclei vicinity, p.2 = []) := by
  have he : Measure.assign d foci nuclei vicinity
      = nuclei.reverse.map fun n =>
          (n, foci.filter fun f => decide (vicinity < d f n)) :=
    assignLoop_eq d foci vicinity nuclei
  have h1 : (Measure.assign d foci nuclei vicinity).map Prod.fst
      = nuclei.reverse := by
    rw [he, List.map_map]
    show List.map id nuclei.reverse = nuclei.reverse
    exact List.map_id _
  refine ⟨h1, ?_, ?_, ?_⟩
  · intro p hp f
    rw [he] at hp
    rcases List.mem_map.mp hp with ⟨n, _, rfl⟩
    simp [List.mem_filter]
  · intro hnd
    rw [h1]
    exact List.nodup_reverse.mpr hnd
  · intro hfoci p hp
    rw [he, hfoci] at hp
    rcases List.mem_map.mp hp with ⟨n, _, rfl⟩
    simp

/-- Witness for C1 at a concrete input: an empty focus list and the nucleus
list `[1, 2]` give the pairs in reversed nucleus order, without duplication,
each with an empty focus list. -/
theorem C1_assign_all_within_threshold_witness :
    (Measure.assign (fun f n : ℚ => f - n) [] [1, 2] 0).map Prod.fst = [2, 1] ∧
    ((Measure.assign (fun f n : ℚ => f - n) [] [1, 2] 0).map Prod.fst).Nodup ∧
    (∀ p ∈ Measure.assign (fun f n : ℚ => f - n) [] [1, 2] 0, p.2 = []) := by
  have h := C1_assign_all_within_threshold (fun f n : ℚ => f - n) [] [1, 2] 0
  refine ⟨h.1.trans (by with_unfolding_all rfl), ?_, h.2.2.2 rfl⟩
  exact h.2.2.1 (by with_unfolding_all decide)

/-! ### Claim C7: BBox geometry -/

/-- C7 as stated is false: nothing constrains a BBox's corners, so a BBox
whose bottom-right corner lies above its top-left corner has negative
height. -/
theorem C7_bbox_negative_height_counterexample :
    Annot.BBox.height ⟨(5, 5), (0, 0), 0, "", 0⟩ < 0 := by
  with_unfolding_all decide

/-- C7 (amended): for every BBox, height and width are the coordinate
differences of the corners and centre is the floor-division midpoint of the
corners; whenever the top-left corner is componentwise at most the
bottom-right corner — as holds for every BBox the code constructs — height
and width are nonnegative. -/
theorem C7_bbox_geometry (tl br : ℤ × ℤ) (idx : ℤ) (label : String)
    (confidence : ℚ) :
    Annot.BBox.height ⟨tl, br, idx, label, confidence⟩ = br.1 - tl.1 ∧
    Annot.BBox.width ⟨tl, br, idx, label, confidence⟩ = br.2 - tl.2 ∧
    (Annot.BBox.centre ⟨tl, br, idx, label, confidence⟩).position
      = ((tl.1 + br.1).fdiv 2, (tl.2 + br.2).fdiv 2) ∧
    (tl.1 ≤ br.1 → 0 ≤ Annot.BBox.height ⟨tl, br, idx, label, confidence⟩) ∧
    (tl.2 ≤ br.2 → 0 ≤ Annot.BBox.width ⟨tl, br, idx, label, confidence⟩) := by
  refine ⟨rfl, rfl, ?_, ?_, ?_⟩
  · show ((br.1 + tl.1).fdiv 2, (br.2 + tl.2).fdiv 2) = _
    rw [Int.add_comm br.1 tl.1, Int.add_comm br.2 tl.2]
  · intro h
    show 0 ≤ br.1 - tl.1
    omega
  · intro h
    show 0 ≤ br.2 - tl.2
    omega

/-- Witness for C7 at a concrete input: the BBox from (0, 0) to (4, 7) has
nonnegative height and width and centre (2, 3). -/
theorem C7_bbox_geometry_witness :
    0 ≤ Annot.BBox.height ⟨(0, 0), (4, 7), 0, "", 0⟩ ∧
    0 ≤ Annot.BBox.width ⟨(0, 0), (4, 7), 0, "", 0⟩ ∧
    (Annot.BBox.centre ⟨(0, 0), (4, 7), 0, "", 0⟩).position = (2, 3) := by
  have h := C7_bbox_geometry (0, 0) (4, 7) 0 "" 0
  refine ⟨h.2.2.2.1 (by decide), h.2.2.2.2 (by decide), ?_⟩
  rw [h.2.2.1]
  decide

/-! ### Claim C8: the centroid denominator is never zero -/

/-- C8: for every contour — including degenerate ones with zero moment
area — the moment area `m00` is nonnegative, so the centroid denominator
`m00 + 1e-5` used by `Contour.centre` is strictly positive and the division
never divides by zero. -/
theorem C8_centre_denominator_positive (pts : List (ℤ × ℤ)) :
    0 ≤ (cvMoments pts).m00 ∧ 0 < (cvMoments pts).m00 + 1/100000 := by
  have h0 : 0 ≤ (cvMoments pts).m00 := by
    simp only [cvMoments]
    split_ifs with h1 h2
    · show (0 : ℚ) ≤ 0
      exact le_refl 0
    · show (0 : ℚ) ≤ (rawA00 pts : ℚ) / 2
      have h3 : (0 : ℚ) < (rawA00 pts : ℚ) := by exact_mod_cast h2
      linarith
    · show (0 : ℚ) ≤ -(rawA00 pts : ℚ) / 2
      have h3 : (rawA00 pts : ℚ) < 0 := by
        exact_mod_cast (by omega : rawA00 pts < 0)
      linarith
  refine ⟨h0, by positivity⟩

/-! ### Claim C9: save_foci on a non-empty focus list -/

/-- C9: for every non-empty focus list, `save_foci` hands `np.savetxt`
exactly one integer row per focus, holding the focus's coordinates in the
column order (col, row). -/
theorem C9_save_foci_nonempty (foci_list : List Cli.Centre)
    (h : foci_list ≠ []) :
    Cli.save_foci foci_list
      = Except.ok (foci_list.map fun c => (c.position.2, c.position.1)) ∧
    (foci_list.map fun c => (c.position.2, c.position.1)).length
      = foci_list.length := by
  constructor
  · unfold Cli.save_foci
    rw [if_neg (by simpa using h)]
    show Except.ok ((foci_list.map Cli.Centre.to_numpy).map _) = _
    rw [List.map_map]
    rfl
  · exact List.length_map _ _

/-- Witness for C9 at a concrete input: a single focus at row 3, column 4 is
written as the single row (4, 3). -/
theorem C9_save_foci_nonempty_witness :
    Cli.save_foci [⟨(3, 4)⟩] = Except.ok [((4 : ℤ), (3 : ℤ))] ∧
    ([((4 : ℤ), (3 : ℤ))] : List (ℤ × ℤ)).length = 1 := by
  have h := C9_save_foci_nonempty [⟨(3, 4)⟩] (List.cons_ne_nil _ _)
  exact ⟨h.1, rfl⟩

/-! ### Claim C10: save_foci on an empty focus list raises -/

/-- C10: on an empty focus list `save_foci` raises IndexError — the branch
that logs that no centriole was detected builds the one-dimensional
`np.array([])` and the two-dimensional column reordering `array[:, [1, 0]]`
fails on it, so `np.savetxt` is never reached and no empty file is
written. -/
theorem C10_save_foci_empty_raises :
    Cli.save_foci [] = Except.error Score.PyError.indexError := rfl

/-! ### Claim C3: field_metrics on empty inputs -/

/-- C3: for every matcher and every pair of annotated and predicted point
sets of which at least one is empty, `field_metrics` returns the record with
precision, recall and f1 all zero — without calling the matcher and without
raising — while n_actual and n_preds still record the two input sizes. -/
theorem C3_field_metrics_empty_inputs {π : Type}
    (matcher : List π → List π → ℤ → Measure.MatchResult)
    (dataset fieldName : String) (channel : ℕ)
    ( annotation predictions : List π) (tolerance : ℤ)
    (h : annotation = [] ∨ predictions = []) :
    (Measure.field_metrics matcher dataset fieldName channel annotation
      predictions tolerance).precision = 0 ∧
    (Measure.field_metrics matcher dataset fieldName channel annotation
      predictions tolerance).«recall» = 0 ∧
    (Measure.field_metrics matcher dataset fieldName channel annotation
      predictions tolerance).f1 = 0 ∧
    (Measure.field_metrics matcher dataset fieldName channel annotation
      predictions tolerance).n_actual = annotation.length ∧
    (Measure.field_metrics matcher dataset fieldName channel annotation
      predictions tolerance).n_preds = predictions.length := by
  have hcond : ¬ (predictions.length ≠ 0 ∧ annotation.length ≠ 0) := by
    rcases h with rfl | rfl <;> simp
  unfold Measure.field_metrics
  rw [if_neg hcond]
  exact ⟨npRound3_zero, npRound3_zero, npRound3_zero, rfl, rfl⟩

/-- Witness for C3 at a concrete input: an empty annotation set against one
predicted point yields zero metrics and the sizes 0 and 1, for a matcher
constantly one. -/
theorem C3_field_metrics_empty_inputs_witness :
    (Measure.field_metrics (fun _ _ _ => Measure.MatchResult.mk 1 1 1)
      ("ds") ("f0") 1 ([] : List ℕ) [5] 3).precision = 0 ∧
    (Measure.field_metrics (fun _ _ _ => Measure.MatchResult.mk 1 1 1)
      ("ds") ("f0") 1 ([] : List ℕ) [5] 3).«recall» = 0 ∧
    (Measure.field_metrics (fun _ _ _ => Measure.MatchResult.mk 1 1 1)
      ("ds") ("f0") 1 ([] : List ℕ) [5] 3).f1 = 0 ∧
    (Measure.field_metrics (fun _ _ _ => Measure.MatchResult.mk 1 1 1)
      ("ds") ("f0") 1 ([] : List ℕ) [5] 3).n_actual = 0 ∧
    (Measure.field_metrics (fun _ _ _ => Measure.MatchResult.mk 1 1 1)
      ("ds") ("f0") 1 ([] : List ℕ) [5] 3).n_preds = 1 := by
  have h := C3_field_metrics_empty_inputs
    (fun _ _ _ => Measure.MatchResult.mk 1 1 1)
    ("ds") ("f0") 1 ([] : List ℕ) [5] 3 (Or.inl rfl)
  exact ⟨h.1, h.2.1, h.2.2.1, h.2.2.2.1, h.2.2.2.2⟩

/-! ### Claim C4: score frequency binning -/

/-- C4: every integer score falls in exactly one of the six buckets; the
bucket labelled k for k below five holds exactly the scores equal to k
(right-open unit intervals) and the bucket labelled + holds every score of
at least five, with no upper bound; on the records with scores 0, 1, 1, 6
for one (field, channel) the absolute frequencies are 1, 2, 0, 0, 0, 1. -/
theorem C4_field_score_frequency_binning :
    (∀ s : ℕ, Measure.score_cat s ∈ ["0", "1", "2", "3", "4", "+"]) ∧
    (∀ s : ℕ,
      (Measure.score_cat s = "0" ↔ s = 0) ∧
      (Measure.score_cat s = "1" ↔ s = 1) ∧
      (Measure.score_cat s = "2" ↔ s = 2) ∧
      (Measure.score_cat s = "3" ↔ s = 3) ∧
      (Measure.score_cat s = "4" ↔ s = 4) ∧
      (Measure.score_cat s = "+" ↔ 5 ≤ s)) ∧
    (Measure.freq_abs [⟨("f"), 1, 0⟩, ⟨("f"), 1, 1⟩, ⟨("f"), 1, 1⟩,
        ⟨("f"), 1, 6⟩] ("f") 1 ("0") = 1 ∧
     Measure.freq_abs [⟨("f"), 1, 0⟩, ⟨("f"), 1, 1⟩, ⟨("f"), 1, 1⟩,
        ⟨("f"), 1, 6⟩] ("f") 1 ("1") = 2 ∧
     Measure.freq_abs [⟨("f"), 1, 0⟩, ⟨("f"), 1, 1⟩, ⟨("f"), 1, 1⟩,
        ⟨("f"), 1, 6⟩] ("f") 1 ("2") = 0 ∧
     Measure.freq_abs [⟨("f"), 1, 0⟩, ⟨("f"), 1, 1⟩, ⟨("f"), 1, 1⟩,
        ⟨("f"), 1, 6⟩] ("f") 1 ("3") = 0 ∧
     Measure.freq_abs [⟨("f"), 1, 0⟩, ⟨("f"), 1, 1⟩, ⟨("f"), 1, 1⟩,
        ⟨("f"), 1, 6⟩] ("f") 1 ("4") = 0 ∧
     Measure.freq_abs [⟨("f"), 1, 0⟩, ⟨("f"), 1, 1⟩, ⟨("f"), 1, 1⟩,
        ⟨("f"), 1, 6⟩] ("f") 1 ("+") = 1) := by
  refine ⟨?_, ?_, ?_⟩
  · intro s
    unfold Measure.score_cat
    split_ifs <;> simp
  · intro s
    rcases Nat.lt_or_ge s 5 with h | h
    · interval_cases s <;> decide
    · have hplus : Measure.score_cat s = "+" := by
        unfold Measure.score_cat
        rw [if_neg (by omega), if_neg (by omega), if_neg (by omega),
          if_neg (by omega), if_neg (by omega)]
      rw [hplus]
      exact ⟨iff_of_false (by decide) (by omega),
        iff_of_false (by decide) (by omega),
        iff_of_false (by decide) (by omega),
        iff_of_false (by decide) (by omega),
        iff_of_false (by decide) (by omega),
        iff_of_true rfl h⟩
  · exact ⟨by decide, by decide, by decide, by decide, by decide, by decide⟩

/-! ### Claim C5: the nearest-with-threshold assign refuses empty inputs -/

/-- C5: both nearest-flavored `assign` functions signal the empty-input
error condition — realised as Python ValueError — exactly when the focus
list or the nucleus list is empty, and run to a normal result exactly when
both are non-empty. -/
theorem C5_assign_nearest_empty_error
    (foci : List (ℚ × ℚ)) (nuclei : List (List (ℚ × ℚ))) :
    (foci = [] →
      Score.assign foci nuclei
        = Except.error (Score.PyError.valueError ("Empty foci list")) ∧
      Score.assignForce foci nuclei
        = Except.error (Score.PyError.valueError ("Empty foci list"))) ∧
    (foci ≠ [] → nuclei = [] →
      Score.assign foci nuclei
        = Except.error (Score.PyError.valueError ("Empty nuclei list")) ∧
      Score.assignForce foci nuclei
        = Except.error (Score.PyError.valueError ("Empty nuclei list"))) ∧
    ((∃ r, Score.assign foci nuclei = Except.ok r) ↔
      foci ≠ [] ∧ nuclei ≠ []) ∧
    ((∃ r, Score.assignForce foci nuclei = Except.ok r) ↔
      foci ≠ [] ∧ nuclei ≠ []) := by
  refine ⟨?_, ?_, ?_, ?_⟩
  · rintro rfl
    exact ⟨rfl, rfl⟩
  · intro hf hn
    have hf' : ¬ foci.length = 0 := by simpa using hf
    subst hn
    constructor
    · unfold Score.assign
      rw [if_neg hf']
      rfl
    · unfold Score.assignForce
      rw [if_neg hf']
      rfl
  · constructor
    · rintro ⟨r, hr⟩
      constructor
      · intro hfoci
        rw [hfoci] at hr
        unfold Score.assign at hr
        simp at hr
      · intro hnuc
        rw [hnuc] at hr
        unfold Score.assign at hr
        split_ifs at hr
        simp_all
    · rintro ⟨hf, hn⟩
      have hf' : ¬ foci.length = 0 := by simpa using hf
      have hn' : ¬ nuclei.length = 0 := by simpa using hn
      refine ⟨foci.foldl (Score.assignStep nuclei) [], ?_⟩
      unfold Score.assign
      rw [if_neg hf', if_neg hn']
  · constructor
    · rintro ⟨r, hr⟩
      constructor
      · intro hfoci
        rw [hfoci] at hr
        unfold Score.assignForce at hr
        simp at hr
      · intro hnuc
        rw [hnuc] at hr
        unfold Score.assignForce at hr
        split_ifs at hr
        simp_all
    · rintro ⟨hf, hn⟩
      have hf' : ¬ foci.length = 0 := by simpa using hf
      have hn' : ¬ nuclei.length = 0 := by simpa using hn
      refine ⟨foci.foldl (Score.assignForceStep nuclei) [], ?_⟩
      unfold Score.assignForce
      rw [if_neg hf', if_neg hn']

/-- Witness for C5 at concrete inputs: with no foci the foci error is
raised, and with one focus but no nuclei the nuclei error is raised. -/
theorem C5_assign_nearest_empty_error_witness :
    Score.assign ([] : List (ℚ × ℚ)) []
      = Except.error (Score.PyError.valueError ("Empty foci list")) ∧
    Score.assign [((0 : ℚ), (0 : ℚ))] []
      = Except.error (Score.PyError.valueError ("Empty nuclei list")) := by
  have h1 := (C5_assign_nearest_empty_error [] []).1 rfl
  have h2 := (C5_assign_nearest_empty_error [((0 : ℚ), (0 : ℚ))] []).2.1
    (List.cons_ne_nil _ _) rfl
  exact ⟨h1.1, h2.1⟩

/-! ### Claim C2: the nearest-with-threshold assign -/

theorem foldl_pick_mem {γ : Type} (xs : List (γ × ℚ)) (x : γ × ℚ) :
    xs.foldl (fun best y => if best.2 < y.2 then y else best) x ∈ x :: xs := by
  induction xs generalizing x with
  | nil => simp
  | cons y ys ih =>
    simp only [List.foldl_cons]
    by_cases hxy : x.2 < y.2
    · rw [if_pos hxy]
      rcases List.mem_cons.mp (ih y) with h1 | h1
      · rw [h1]
        simp
      · exact List.mem_cons_of_mem _ (List.mem_cons_of_mem _ h1)
    · rw [if_neg hxy]
      rcases List.mem_cons.mp (ih x) with h1 | h1
      · rw [h1]
        simp
      · exact List.mem_cons_of_mem _ (List.mem_cons_of_mem _ h1)

theorem foldl_pick_le {γ : Type} (xs : List (γ × ℚ)) (x : γ × ℚ) :
    ∀ y ∈ x :: xs,
      y.2 ≤ (xs.foldl (fun best y => if best.2 < y.2 then y else best) x).2 := by
  induction xs generalizing x with
  | nil =>
    intro y hy
    have h : y = x := by simpa using hy
    subst h
    simp
  | cons z zs ih =>
    intro y hy
    simp only [List.foldl_cons]
    have hstep : x.2 ≤ (if x.2 < z.2 then z else x).2 ∧
        z.2 ≤ (if x.2 < z.2 then z else x).2 := by
      by_cases hxz : x.2 < z.2
      · rw [if_pos hxz]
        exact ⟨le_of_lt hxz, le_refl _⟩
      · rw [if_neg hxz]
        exact ⟨le_refl _, le_of_not_lt hxz⟩
    rcases List.mem_cons.mp hy with h | h
    · rw [h]
      exact le_trans hstep.1 (ih _ _ (List.mem_cons_self _ _))
    · rcases List.mem_cons.mp h with h2 | h2
      · rw [h2]
        exact le_trans hstep.2 (ih _ _ (List.mem_cons_self _ _))
      · exact ih _ y (List.mem_cons_of_mem _ h2)

/-- Python `max` on a non-empty keyed list returns a member whose key is
maximal. -/
theorem pyMax_mem_le {γ : Type} (l : List (γ × ℚ)) (m : γ × ℚ)
    (hm : Score.pyMax l = some m) : m ∈ l ∧ ∀ y ∈ l, y.2 ≤ m.2 := by
  cases l with
  | nil => simp [Score.pyMax] at hm
  | cons x xs =>
    have hm' : xs.foldl (fun best y => if best.2 < y.2 then y else best) x
        = m := by
      simpa [Score.pyMax] using hm
    subst hm'
    exact ⟨foldl_pick_mem xs x, foldl_pick_le xs x⟩

theorem assignStep_eq (nuclei : List (List (ℚ × ℚ)))
    (acc : List ((ℚ × ℚ) × List (ℚ × ℚ))) (c : ℚ × ℚ) (m : List (ℚ × ℚ) × ℚ)
    (hm : Score.pyMax (nuclei.map fun n => (n, pointPolygonTest n c))
      = some m) :
    Score.assignStep nuclei acc c
      = if -2500 < m.2 then acc ++ [(c, m.1)] else acc := by
  show (match Score.pyMax (nuclei.map fun n => (n, pointPolygonTest n c)) with
    | none => acc
    | some nearest =>
      if -2500 < nearest.2 then acc ++ [(c, nearest.1)] else acc) = _
  rw [hm]

theorem assignStep_preserves (nuclei : List (List (ℚ × ℚ))) (hn : nuclei ≠ [])
    (acc : List ((ℚ × ℚ) × List (ℚ × ℚ))) (c : ℚ × ℚ)
    (hacc : ∀ pr ∈ acc, Score.NearestOk nuclei pr) :
    ∀ pr ∈ Score.assignStep nuclei acc c, Score.NearestOk nuclei pr := by
  obtain ⟨m, hm⟩ : ∃ m,
      Score.pyMax (nuclei.map fun n => (n, pointPolygonTest n c)) = some m := by
    cases nuclei with
    | nil => exact absurd rfl hn
    | cons n ns => exact ⟨_, rfl⟩
  intro pr hpr
  rw [assignStep_eq nuclei acc c m hm] at hpr
  rcases pyMax_mem_le _ m hm with ⟨hmem, hle⟩
  rcases List.mem_map.mp hmem with ⟨n0, hn0, rfl⟩
  split_ifs at hpr with hth
  · rcases List.mem_append.mp hpr with h1 | h1
    · exact hacc pr h1
    · have hpr' : pr = (c, n0) := by simpa using h1
      subst hpr'
      refine ⟨hn0, hth, ?_⟩
      intro n hn2
      exact hle (n, pointPolygonTest n c) (List.mem_map_of_mem _ hn2)
  · exact hacc pr hpr

theorem assign_foldl_spec (nuclei : List (List (ℚ × ℚ))) (hn : nuclei ≠ []) :
    ∀ (foci : List (ℚ × ℚ)) (acc : List ((ℚ × ℚ) × List (ℚ × ℚ))),
      (∀ pr ∈ acc, Score.NearestOk nuclei pr) →
      ∀ pr ∈ foci.foldl (Score.assignStep nuclei) acc,
        Score.NearestOk nuclei pr := by
  intro foci
  induction foci with
  | nil =>
    intro acc hacc
    simpa using hacc
  | cons c cs ih =>
    intro acc hacc
    simp only [List.foldl_cons]
    exact ih _ (assignStep_preserves nuclei hn acc c hacc)

/-- C2: on non-empty inputs the nearest-with-threshold `assign` succeeds and
every output pairing joins a focus to an input nucleus that is nearest to it
in signed distance, included only because the signed distance exceeds the
vicinity threshold; and on the square nucleus [(0,0),(0,20),(20,20),(20,0)]
with foci (10,10) (inside) and (100,100) (far outside), only the inside
focus is assigned to the nucleus. -/
theorem C2_assign_nearest_with_threshold :
    (∀ (foci : List (ℚ × ℚ)) (nuclei : List (List (ℚ × ℚ))),
      foci ≠ [] → nuclei ≠ [] →
      ∃ res, Score.assign foci nuclei = Except.ok res ∧
        ∀ pr ∈ res, Score.NearestOk nuclei pr) ∧
    Score.assign [(10, 10), (100, 100)]
        [[(0, 0), (0, 20), (20, 20), (20, 0)]]
      = Except.ok [((10, 10), [(0, 0), (0, 20), (20, 20), (20, 0)])] := by
  constructor
  · intro foci nuclei hf hn
    have hf' : ¬ foci.length = 0 := by simpa using hf
    have hn' : ¬ nuclei.length = 0 := by simpa using hn
    refine ⟨foci.foldl (Score.assignStep nuclei) [], ?_, ?_⟩
    · unfold Score.assign
      rw [if_neg hf', if_neg hn']
    · exact assign_foldl_spec nuclei hn foci [] (by simp)
  · with_unfolding_all rfl

/-- Witness for C2 at a concrete input: one focus inside one square nucleus
is assigned, with the nearest-and-thresholded guarantee. -/
theorem C2_assign_nearest_with_threshold_witness :
    ∃ res, Score.assign [((1 : ℚ), (1 : ℚ))] [[(0, 0), (0, 2), (2, 2), (2, 0)]]
        = Except.ok res ∧
      ∀ pr ∈ res, Score.NearestOk [[(0, 0), (0, 2), (2, 2), (2, 0)]] pr :=
  C2_assign_nearest_with_threshold.1 _ _ (List.cons_ne_nil _ _)
    (List.cons_ne_nil _ _)

/-! ### Claim C6: the Contour centre against its bounding box -/

/-- C6 fails on the code: `Contour.bbox` unpacks `cv2.boundingRect` — which
returns `(x, y, w, h)` — into variables named `r, c, h, w`, so the box
corners carry the column range where the row range belongs and conversely;
for the convex square below spanning rows 0 to 20 and columns 100 to 120
(contour points in OpenCV (x, y) order), the centre is the (row, col) point
(9, 109) while the reported box is ((100, 0), (121, 21)), so the centre lies
outside the box returned by `bbox`. -/
theorem C6_centre_outside_bbox :
    ¬ Annot.inBBox
      (Annot.Contour.centre
        ⟨[(100, 0), (100, 20), (120, 20), (120, 0)], ("Nucleus"), 0, 0⟩).position
      (Annot.Contour.bbox
        ⟨[(100, 0), (100, 20), (120, 20), (120, 0)], ("Nucleus"), 0, 0⟩) := by
  with_unfolding_all decide

end Centrack
